import Mathlib

/-!
# Person counter (Arduino Nano / ESP8266 ports): shallow embedding

This development embeds the detection-and-counting core of the person
counter firmware: range sampling with a median-of-3 filter
(`medianDistance`), the adaptive baseline EMA (`updateBaseline`),
the FREE/OCCUPIED hysteresis state machine with debounce and safety
timeout (`loopStep`), blocking recalibration (`recalibrateBaseline`),
and EEPROM persistence (`saveCounterSteps`, `loadCounter`).

Modelling conventions:
* IEEE floats are embedded as `Flt := Option ℚ`, where `none` plays the
  role of `NAN`.  Every arithmetic operation propagates `none`, and every
  ordered comparison involving `none` is `false`, exactly the IEEE
  comparison semantics the firmware relies on (`isnan`, comparisons
  against an uncalibrated `baseline = NAN`).
* `uint32` values (`millis()`, `peopleCount`, pulse durations) are
  naturals reduced modulo `2^32` where the code can wrap; `byte`
  (`clearCount`) is reduced modulo `256`.
* EEPROM is a two-cell record (the magic tag cell and the counter cell,
  which live at disjoint addresses in both ports).  `saveCounter` is
  embedded as the list of individual persisting write steps it performs,
  so that torn (prefix-interrupted) writes can be examined.
-/

/-- Embedded `float`: `none` is `NAN`, `some q` a (finite) value. -/
abbrev Flt := Option ℚ

/-- Float subtraction, `NAN`-propagating. -/
def fsub (a b : Flt) : Flt :=
  match a, b with
  | some x, some y => some (x - y)
  | _, _ => none

/-- Float addition, `NAN`-propagating. -/
def fadd (a b : Flt) : Flt :=
  match a, b with
  | some x, some y => some (x + y)
  | _, _ => none

/-- Float multiplication, `NAN`-propagating. -/
def fmul (a b : Flt) : Flt :=
  match a, b with
  | some x, some y => some (x * y)
  | _, _ => none

/-- `fabs`, `NAN`-propagating. -/
def fabsF (a : Flt) : Flt :=
  match a with
  | some x => some |x|
  | none => none

/-- `a >= b` on floats: false when either operand is `NAN`. -/
def fgeB (a b : Flt) : Bool :=
  match a, b with
  | some x, some y => decide (y ≤ x)
  | _, _ => false

/-- `a < b` on floats: false when either operand is `NAN`. -/
def fltB (a b : Flt) : Bool :=
  match a, b with
  | some x, some y => decide (x < y)
  | _, _ => false

/-- `2^32`, the modulus of `uint32` / AVR `unsigned long` arithmetic. -/
def UINT32 : ℕ := 4294967296

/-- `VAR_RATIO = 0.30`: relative deviation that fires a detection. -/
def varRatio : ℚ := 30 / 100

/-- `CLEAR_RATIO = 0.12`: relative deviation treated as "beam clear". -/
def clearRatio : ℚ := 12 / 100

/-- `CLEAR_SEQ = 3`: consecutive clear samples needed to re-arm. -/
def clearSeq : ℕ := 3

/-- `TIMEOUT / OCCUPIED_TIMEOUT_MS = 2500` ms maximum in OCCUPIED. -/
def timeoutMs : ℕ := 2500

/-- `BASE_ALPHA = 0.003`: EMA smoothing factor for the baseline. -/
def baseAlpha : ℚ := 3 / 1000

/-- `MIN_CM / MIN_SAMPLE_CM = 5`. -/
def minCm : ℚ := 5

/-- `MAX_CM / MAX_SAMPLE_CM = 600`. -/
def maxCm : ℚ := 600

/-- AVR port magic tag `MAGIC = 0xA5A5`. -/
def MAGIC : ℕ := 42405

/-- ESP8266 port magic tag `EEPROM_MAGIC = 0xFADEBEEF`. -/
def espMagic : ℕ := 4208574191

/-- Persistent storage: the magic-tag cell and the counter cell (they
occupy disjoint addresses in both ports). -/
structure EEStore where
  magicCell : ℕ
  countCell : ℕ
  deriving Repr, DecidableEq

/-- One atomic persisting write step.  On the AVR port each `EEPROM.put`
persists immediately (`putMagic`, `putCount`); on the ESP8266 port the
`put`s only fill a RAM cache and the single `EEPROM.commit()` persists
the whole block at once (`commitBlock`). -/
inductive WStep where
  | putMagic (m : ℕ)
  | putCount (c : ℕ)
  | commitBlock (m c : ℕ)
  deriving Repr, DecidableEq

/-- Apply one persisting write step to storage. -/
def applyW (st : EEStore) (w : WStep) : EEStore :=
  match w with
  | .putMagic m => { st with magicCell := m }
  | .putCount c => { st with countCell := c }
  | .commitBlock m c => { magicCell := m, countCell := c }

/-- Run a sequence of write steps in order. -/
def runW (st : EEStore) (ws : List WStep) : EEStore :=
  ws.foldl applyW st

/-- AVR `saveCounter()`: `EEPROM.put(EE_MAGIC_ADDR, MAGIC);` then
`EEPROM.put(EE_COUNT_ADDR, peopleCount);` — two separate persisting
writes, magic first. -/
def saveCounterSteps (c : ℕ) : List WStep :=
  [WStep.putMagic MAGIC, WStep.putCount c]

/-- ESP8266 `saveCounter()`: both `EEPROM.put`s go to the RAM cache and
`EEPROM.commit()` persists magic and count as one block. -/
def espSaveCounterSteps (c : ℕ) : List WStep :=
  [WStep.commitBlock espMagic c]

/-- Net storage effect of one AVR `saveCounter()` call. -/
def saveStore (c : ℕ) (st : EEStore) : EEStore :=
  runW st (saveCounterSteps c)

/-- AVR `loadCounter()`: reads the magic cell; only on an exact match
does it overwrite `peopleCount` (passed in as `pc`, `0` at startup)
with the stored count. -/
def loadCounter (st : EEStore) (pc : ℕ) : ℕ :=
  if st.magicCell = MAGIC then st.countCell else pc

/-- ESP8266 `loadCounter()`: same shape with the 32-bit magic. -/
def espLoadCounter (st : EEStore) (pc : ℕ) : ℕ :=
  if st.magicCell = espMagic then st.countCell else pc

/-- Convert one raw echo duration (µs, `0` = `pulseIn` timeout) to a
distance: `cm = us / 58.0`, rejected when the echo timed out or `cm`
falls outside `[MIN_CM, MAX_CM]`. -/
def convertCm (us : ℕ) : Flt :=
  if us = 0 then none
  else
    let cm : ℚ := (us : ℚ) / 58
    if cm < minCm ∨ cm > maxCm then none else some cm

/-- The 3-element sorting network of `medianDistance` (conditional swaps
`v0↔v1`, `v1↔v2`, `v0↔v1`), returning the middle element `v[1]`. -/
def mid3 (a b c : ℕ) : ℕ :=
  let a1 := if a > b then b else a
  let b1 := if a > b then a else b
  if b1 > c then
    if a1 > c then a1 else c
  else b1

/-- Mathematical median (middle value) of three naturals. -/
def median3 (a b c : ℕ) : ℕ :=
  max (min a b) (min (max a b) c)

/-- `medianDistance()`: three raw pings; any timeout or out-of-range
conversion discards the whole sample (early `return NAN`); otherwise
each value is stored as `(uint32_t)(cm * 100)` and the median of the
three stored values is returned as `v[1] / 100.0`. -/
def medianDistance (u0 u1 u2 : ℕ) : Flt :=
  match convertCm u0 with
  | none => none
  | some c0 =>
    match convertCm u1 with
    | none => none
    | some c1 =>
      match convertCm u2 with
      | none => none
      | some c2 =>
        let v0 := (⌊c0 * 100⌋).toNat
        let v1 := (⌊c1 * 100⌋).toNat
        let v2 := (⌊c2 * 100⌋).toNat
        some ((mid3 v0 v1 v2 : ℚ) / 100)

/-- `updateBaseline(d)`: EMA update gated on `!occupied` and on the
sample already lying within the clear band of the current baseline;
reads the state-machine flag after the current cycle's transitions. -/
def updateBaseline (occupied : Bool) (baseline : Flt) (d : Flt) : Flt :=
  if !occupied && fltB (fabsF (fsub d baseline)) (fmul baseline (some clearRatio)) then
    fadd (fmul baseline (some (1 - baseAlpha))) (fmul d (some baseAlpha))
  else baseline

/-- The firmware's mutable globals relevant to the core. -/
structure MState where
  peopleCount : ℕ
  baseline : Flt
  occupied : Bool
  clearCount : ℕ
  triggeredTS : ℕ
  paused : Bool
  store : EEStore
  deriving Repr, DecidableEq

/-- `uint32` subtraction `a - b` (as in `millis() - triggeredTS`) for
`a, b` already reduced below `2^32`. -/
def wsub32 (a b : ℕ) : ℕ :=
  (a + UINT32 - b % UINT32) % UINT32

/-- Arrival branch of `loop()`: on `!occupied && delta >= varThresh`
increment the counter (32-bit), persist synchronously, enter OCCUPIED,
record `millis()`, and zero the clear counter. -/
def triggerPhase (s : MState) (delta varThresh : Flt) (now : ℕ) : MState :=
  if !s.occupied && fgeB delta varThresh then
    let pc := (s.peopleCount + 1) % UINT32
    { s with
        peopleCount := pc
        store := saveStore pc s.store
        occupied := true
        triggeredTS := now % UINT32
        clearCount := 0 }
  else s

/-- Departure branch of `loop()`: while OCCUPIED, a clear sample
increments `clearCount` (a byte) and re-arms at `CLEAR_SEQ`; a failing
sample zeroes `clearCount`; independently, the safety timeout re-arms
when `millis() - triggeredTS > TIMEOUT`. -/
def clearTimeoutPhase (s : MState) (delta clearThresh : Flt) (now : ℕ) : MState :=
  if s.occupied then
    let sA :=
      if fltB delta clearThresh then
        let cc := (s.clearCount + 1) % 256
        if clearSeq ≤ cc then { s with clearCount := cc, occupied := false }
        else { s with clearCount := cc }
      else { s with clearCount := 0 }
    if timeoutMs < wsub32 (now % UINT32) sA.triggeredTS then
      { sA with occupied := false }
    else sA
  else s

/-- One iteration of `loop()` past the serial check, fed the median
distance `dist` and the current `millis()` value `now`.  An invalid
sample returns early; otherwise `delta` and both thresholds are computed
once from the current baseline, the arrival branch and the departure
branch run in order, and finally `updateBaseline` runs against the
post-transition occupancy flag. -/
def loopStep (s : MState) (dist : Flt) (now : ℕ) : MState :=
  match dist with
  | none => s
  | some _ =>
    let delta := fabsF (fsub dist s.baseline)
    let varThresh := fmul s.baseline (some varRatio)
    let clearThresh := fmul s.baseline (some clearRatio)
    let s1 := triggerPhase s delta varThresh now
    let s2 := clearTimeoutPhase s1 delta clearThresh now
    { s2 with baseline := updateBaseline s2.occupied s2.baseline dist }

/-- Sum and count of the valid samples of a calibration window
(`if (!isnan(d)) { sum += d; n++; }`). -/
def calibScan (samples : List Flt) : ℚ × ℕ :=
  samples.foldl
    (fun acc d =>
      match d with
      | some q => (acc.1 + q, acc.2 + 1)
      | none => acc)
    (0, 0)

/-- ESP8266 `recalibrateBaseline()`: average the valid samples of the
window (`if (n) baseline = sum / n;` — zero valid samples keep the old
baseline), then force FREE with a zero clear counter and zero
timestamp. -/
def recalibrateBaseline (samples : List Flt) (s : MState) : MState :=
  let scan := calibScan samples
  { s with
      baseline := if scan.2 ≠ 0 then some (scan.1 / (scan.2 : ℚ)) else s.baseline
      occupied := false
      clearCount := 0
      triggeredTS := 0 }

/-- AVR initial calibration (in `setup()`): only the baseline update,
with the same `if (n)` guard. -/
def avrCalibrate (samples : List Flt) (baseline : Flt) : Flt :=
  let scan := calibScan samples
  if scan.2 ≠ 0 then some (scan.1 / (scan.2 : ℚ)) else baseline

/-- The operations that touch the shared state across the system:
a sampling cycle (skipped while paused), the `RST` command / `/reset`
handler, the `COUNT` command (pauses counting on the AVR port), and the
`/baseline` recalibration handler. -/
inductive Op where
  | cycle (dist : Flt) (now : ℕ)
  | rst
  | countCmd
  | recal (samples : List Flt)

/-- Apply one operation to the state. -/
def applyOp (s : MState) (op : Op) : MState :=
  match op with
  | .cycle dist now => if s.paused then s else loopStep s dist now
  | .rst => { s with peopleCount := 0, store := saveStore 0 s.store }
  | .countCmd => { s with paused := true }
  | .recal samples => recalibrateBaseline samples s

/-! ## Evaluation lemmas for the float embedding -/

theorem fsub_some_some (x y : ℚ) : fsub (some x) (some y) = some (x - y) := rfl

theorem fadd_some_some (x y : ℚ) : fadd (some x) (some y) = some (x + y) := rfl

theorem fmul_some_some (x y : ℚ) : fmul (some x) (some y) = some (x * y) := rfl

theorem fabsF_some (x : ℚ) : fabsF (some x) = some |x| := rfl

theorem fgeB_some_some (x y : ℚ) : fgeB (some x) (some y) = decide (y ≤ x) := rfl

theorem fltB_some_some (x y : ℚ) : fltB (some x) (some y) = decide (x < y) := rfl

theorem fsub_none_right (a : Flt) : fsub a none = none := by cases a <;> rfl

theorem fsub_none_left (a : Flt) : fsub none a = none := rfl

theorem fmul_none_left (a : Flt) : fmul none a = none := rfl

theorem fabsF_none : fabsF none = none := rfl

theorem fgeB_none_left (a : Flt) : fgeB none a = false := rfl

theorem fltB_none_left (a : Flt) : fltB none a = false := rfl

/-- `millis() - triggeredTS` in the cycle that set `triggeredTS`. -/
theorem wsub32_self (a : ℕ) : wsub32 a a = 0 := by
  simp only [wsub32, UINT32]
  omega

/-- `uint32` subtraction agrees with truncated subtraction when no wrap
occurred. -/
theorem wsub32_eq_sub (a b : ℕ) (hba : b ≤ a) (ha : a < UINT32) :
    wsub32 a b = a - b := by
  simp only [wsub32, UINT32] at *
  omega

/-- While OCCUPIED the EMA update is a no-op. -/
theorem updateBaseline_occupied (b d : Flt) : updateBaseline true b d = b := by
  simp [updateBaseline]

/-- An uncalibrated (`NAN`) baseline is never updated. -/
theorem updateBaseline_none (occ : Bool) (d : Flt) :
    updateBaseline occ none d = none := by
  cases d <;>
    simp [updateBaseline, fsub_none_right, fsub_none_left, fabsF_none,
      fmul_none_left, fltB_none_left]

/-! ## Claim theorems: baseline tracker and counter store -/

/-- Claim C7: while OCCUPIED, `updateBaseline` leaves the baseline
unchanged regardless of the sample; the baseline is mutated only in the
FREE state when the sample's deviation from the current baseline is
below `0.12 × baseline`, in which case it becomes the exponential moving
average with factor `0.003`; an uncalibrated baseline is never touched
at all. -/
theorem updateBaseline_frame_and_ema :
    (∀ (b d : Flt), updateBaseline true b d = b) ∧
    (∀ (b d : ℚ), updateBaseline false (some b) (some d) =
      if |d - b| < clearRatio * b then
        some (b * (1 - baseAlpha) + d * baseAlpha)
      else some b) ∧
    (∀ (occ : Bool) (d : Flt), updateBaseline occ none d = none) := by
  refine ⟨updateBaseline_occupied, ?_, updateBaseline_none⟩
  intro b d
  simp only [updateBaseline, fsub_some_some, fabsF_some, fmul_some_some,
    fltB_some_some, fadd_some_some, Bool.not_false, Bool.true_and,
    decide_eq_true_eq]
  rw [mul_comm b clearRatio]

/-- Claim C5: `loadCounter` (both ports) returns the stored count only
on an exact magic match; on a mismatch it leaves the zero-initialised
counter at `0` — uninitialised storage, not an error. -/
theorem loadCounter_magic_validation (st : EEStore) (pc : ℕ) :
    (st.magicCell ≠ MAGIC → loadCounter st 0 = 0) ∧
    (st.magicCell = MAGIC → loadCounter st pc = st.countCell) ∧
    (st.magicCell ≠ espMagic → espLoadCounter st 0 = 0) ∧
    (st.magicCell = espMagic → espLoadCounter st pc = st.countCell) := by
  refine ⟨fun h => ?_, fun h => ?_, fun h => ?_, fun h => ?_⟩ <;>
    simp [loadCounter, espLoadCounter, h]

/-- Witness for C5 at concrete stores: a corrupt magic yields `0`, a
matching magic yields the stored count. -/
theorem loadCounter_magic_validation_witness :
    loadCounter ⟨7, 9⟩ 0 = 0 ∧ loadCounter ⟨42405, 9⟩ 3 = 9 := by
  exact ⟨(loadCounter_magic_validation ⟨7, 9⟩ 0).1 (by decide),
    (loadCounter_magic_validation ⟨42405, 9⟩ 3).2.1 rfl⟩

/-- Counterexample for C4: on the AVR port `saveCounter` persists the
magic FIRST and the count SECOND, so the torn write that stops after the
first step leaves storage with a valid magic paired with a count the
save never confirmed: starting from uninitialised storage `⟨0, 5⟩`
(garbage count, invalid magic, `loadCounter` yields `0`), saving `6` and
tearing after one step yields `⟨MAGIC, 5⟩`, from which `loadCounter`
happily returns the stale `5`.  The magic write is therefore not the
completing step, nor is the pair written atomically. -/
theorem saveCounter_torn_write_counterexample :
    runW ⟨0, 5⟩ ((saveCounterSteps 6).take 1) = ⟨MAGIC, 5⟩ ∧
    loadCounter ⟨42405, 5⟩ 0 = 5 ∧
    (5 : ℕ) ≠ 6 ∧
    (saveCounterSteps 6).take 1 ≠ saveCounterSteps 6 := by
  refine ⟨rfl, rfl, by decide, by decide⟩

/-- Claim C4 (amended): a completed `saveCounter` on either port leaves
exactly the magic and the saved count.  On the ESP8266 port the two
`EEPROM.put`s only fill the RAM cache and the single `EEPROM.commit()`
persists magic and count as one atomic block, so every torn prefix is
all-or-nothing.  On the AVR port, however, `saveCounter` persists the
magic first and the count second, so the intermediate torn state pairs
a valid magic with the previous count cell. -/
theorem saveCounter_completion_and_esp_atomicity (st : EEStore) (c : ℕ) :
    runW st (saveCounterSteps c) = ⟨MAGIC, c⟩ ∧
    runW st ((saveCounterSteps c).take 0) = st ∧
    runW st ((saveCounterSteps c).take 1) = ⟨MAGIC, st.countCell⟩ ∧
    (espSaveCounterSteps c).length = 1 ∧
    runW st ((espSaveCounterSteps c).take 0) = st ∧
    runW st (espSaveCounterSteps c) = ⟨espMagic, c⟩ := by
  exact ⟨rfl, rfl, rfl, rfl, rfl, rfl⟩

/-! ## Characterization of one loop cycle -/

theorem clear_of_ge (b d : ℚ) (hge : b * varRatio ≤ |d - b|) :
    ¬(|d - b| < b * clearRatio) := by
  simp only [varRatio, clearRatio] at *
  have := abs_nonneg (d - b)
  intro h
  linarith

theorem loopStep_invalid (s : MState) (now : ℕ) : loopStep s none now = s := rfl

theorem loopStep_trigger (s : MState) (b d : ℚ) (now : ℕ)
    (hb : s.baseline = some b) (hocc : s.occupied = false)
    (hge : b * varRatio ≤ |d - b|) :
    loopStep s (some d) now =
      { s with
          peopleCount := (s.peopleCount + 1) % UINT32
          store := ⟨MAGIC, (s.peopleCount + 1) % UINT32⟩
          occupied := true
          triggeredTS := now % UINT32
          clearCount := 0 } := by
  have h1 : fgeB (fabsF (fsub (some d) (some b))) (fmul (some b) (some varRatio)) = true := by
    simp [fgeB_some_some, fabsF_some, fsub_some_some, fmul_some_some, hge]
  have h2 : fltB (fabsF (fsub (some d) (some b))) (fmul (some b) (some clearRatio)) = false := by
    simp [fltB_some_some, fabsF_some, fsub_some_some, fmul_some_some, clear_of_ge b d hge]
  simp only [loopStep, hb, triggerPhase, hocc, Bool.not_false, Bool.true_and, h1, if_true,
    clearTimeoutPhase, h2, Bool.false_eq_true, if_false, wsub32_self, saveStore, runW,
    saveCounterSteps, applyW, List.foldl, updateBaseline_occupied]
  simp [Nat.not_lt_zero, updateBaseline_occupied]

theorem loopStep_below_threshold (s : MState) (b d : ℚ) (now : ℕ)
    (hb : s.baseline = some b) (hocc : s.occupied = false)
    (hlt : |d - b| < b * varRatio) :
    loopStep s (some d) now =
      { s with baseline := updateBaseline false (some b) (some d) } := by
  have h1 : fgeB (fabsF (fsub (some d) (some b))) (fmul (some b) (some varRatio)) = false := by
    simp [fgeB_some_some, fabsF_some, fsub_some_some, fmul_some_some, not_le.mpr hlt]
  simp only [loopStep, hb, triggerPhase, hocc, Bool.not_false, Bool.true_and, h1,
    Bool.false_eq_true, if_false, clearTimeoutPhase]

theorem loopStep_clear_stay (s : MState) (b d : ℚ) (now : ℕ)
    (hb : s.baseline = some b) (hocc : s.occupied = true)
    (hcl : |d - b| < b * clearRatio)
    (hcc : (s.clearCount + 1) % 256 < clearSeq)
    (htm : wsub32 (now % UINT32) s.triggeredTS ≤ timeoutMs) :
    loopStep s (some d) now = { s with clearCount := (s.clearCount + 1) % 256 } := by
  have h2 : fltB (fabsF (fsub (some d) (some b))) (fmul (some b) (some clearRatio)) = true := by
    simp [fltB_some_some, fabsF_some, fsub_some_some, fmul_some_some, hcl]
  simp only [loopStep, hb, triggerPhase, hocc, Bool.not_true, Bool.false_and,
    Bool.false_eq_true, if_false, clearTimeoutPhase, h2, if_true]
  simp [not_le.mpr hcc, not_lt.mpr htm, updateBaseline_occupied]

theorem loopStep_clear_rearm (s : MState) (b d : ℚ) (now : ℕ)
    (hb : s.baseline = some b) (hocc : s.occupied = true)
    (hcl : |d - b| < b * clearRatio)
    (hcc : clearSeq ≤ (s.clearCount + 1) % 256) :
    loopStep s (some d) now =
      { s with
          clearCount := (s.clearCount + 1) % 256
          occupied := false
          baseline := updateBaseline false (some b) (some d) } := by
  have h2 : fltB (fabsF (fsub (some d) (some b))) (fmul (some b) (some clearRatio)) = true := by
    simp [fltB_some_some, fabsF_some, fsub_some_some, fmul_some_some, hcl]
  simp only [loopStep, hb, triggerPhase, hocc, Bool.not_true, Bool.false_and,
    Bool.false_eq_true, if_false, clearTimeoutPhase, h2, if_true, hcc]
  split_ifs <;> simp [hb]

theorem loopStep_clear_fail (s : MState) (b d : ℚ) (now : ℕ)
    (hb : s.baseline = some b) (hocc : s.occupied = true)
    (hncl : ¬(|d - b| < b * clearRatio))
    (htm : wsub32 (now % UINT32) s.triggeredTS ≤ timeoutMs) :
    loopStep s (some d) now = { s with clearCount := 0 } := by
  have h2 : fltB (fabsF (fsub (some d) (some b))) (fmul (some b) (some clearRatio)) = false := by
    simp [fltB_some_some, fabsF_some, fsub_some_some, fmul_some_some, hncl]
  simp only [loopStep, hb, triggerPhase, hocc, Bool.not_true, Bool.false_and,
    Bool.false_eq_true, if_false, clearTimeoutPhase, h2, if_true]
  simp [not_lt.mpr htm, updateBaseline_occupied, hb]

theorem loopStep_timeout (s : MState) (d : ℚ) (now : ℕ)
    (hocc : s.occupied = true)
    (htm : timeoutMs < wsub32 (now % UINT32) s.triggeredTS) :
    (loopStep s (some d) now).occupied = false ∧
    (loopStep s (some d) now).peopleCount = s.peopleCount ∧
    (loopStep s (some d) now).store = s.store := by
  simp only [loopStep, triggerPhase, hocc, Bool.not_true, Bool.false_and,
    Bool.false_eq_true, if_false, clearTimeoutPhase, if_true]
  split_ifs with hc hs <;> simp_all

theorem loopStep_occupied_frame (s : MState) (d : ℚ) (now : ℕ)
    (hocc : s.occupied = true) :
    (loopStep s (some d) now).peopleCount = s.peopleCount ∧
    (loopStep s (some d) now).store = s.store := by
  simp only [loopStep, triggerPhase, hocc, Bool.not_true, Bool.false_and,
    Bool.false_eq_true, if_false, clearTimeoutPhase, if_true]
  split_ifs with hc hs <;> simp_all

theorem loopStep_nan_baseline (s : MState) (d : ℚ) (now : ℕ)
    (hb : s.baseline = none) :
    (loopStep s (some d) now).peopleCount = s.peopleCount ∧
    (loopStep s (some d) now).store = s.store ∧
    (loopStep s (some d) now).baseline = none ∧
    (s.occupied = false → (loopStep s (some d) now).occupied = false) := by
  have h1 : fgeB (fabsF (fsub (some d) none)) (fmul none (some varRatio)) = false := by
    simp [fsub_none_right, fabsF_none, fgeB_none_left]
  have h2 : fltB (fabsF (fsub (some d) none)) (fmul none (some clearRatio)) = false := by
    simp [fsub_none_right, fabsF_none, fltB_none_left]
  simp only [loopStep, hb, triggerPhase, h1, Bool.and_false, Bool.false_eq_true, if_false,
    clearTimeoutPhase, h2]
  by_cases ho : s.occupied = true
  · simp only [ho, if_true]
    split_ifs <;> simp_all [updateBaseline_none]
  · simp only [Bool.not_eq_true] at ho
    simp [ho, hb, updateBaseline_none]

/-! ## Claim theorems: range sampler -/

/-- The code's 3-element sorting network returns the middle value. -/
theorem mid3_eq_median3 (a b c : ℕ) : mid3 a b c = median3 a b c := by
  simp only [mid3, median3, min_def, max_def]
  split_ifs <;> omega

/-- A raw measurement is rejected exactly when the echo timed out
(`us = 0`) or the converted distance leaves `[MIN_CM, MAX_CM]`. -/
theorem convertCm_eq_none (u : ℕ) :
    convertCm u = none ↔ u = 0 ∨ (u : ℚ) / 58 < minCm ∨ (u : ℚ) / 58 > maxCm := by
  by_cases h : u = 0
  · simp [convertCm, h]
  · simp only [convertCm, h, if_false]
    split_ifs with h2
    · simp [h, h2]
    · push_neg at h2
      simp [h, h2]

/-- Claim C6: `medianDistance` returns invalid exactly when one of the
three raw measurements timed out or converted outside `[5 cm, 600 cm]`
(no partial median); otherwise it returns the median (middle value) of
the three converted, centi-cm-truncated values. -/
theorem medianDistance_validity_and_median (u0 u1 u2 : ℕ) :
    (medianDistance u0 u1 u2 = none ↔
      (u0 = 0 ∨ (u0 : ℚ) / 58 < minCm ∨ (u0 : ℚ) / 58 > maxCm) ∨
      (u1 = 0 ∨ (u1 : ℚ) / 58 < minCm ∨ (u1 : ℚ) / 58 > maxCm) ∨
      (u2 = 0 ∨ (u2 : ℚ) / 58 < minCm ∨ (u2 : ℚ) / 58 > maxCm)) ∧
    (∀ c0 c1 c2 : ℚ,
      convertCm u0 = some c0 → convertCm u1 = some c1 → convertCm u2 = some c2 →
      medianDistance u0 u1 u2 =
        some ((median3 (⌊c0 * 100⌋).toNat (⌊c1 * 100⌋).toNat (⌊c2 * 100⌋).toNat : ℚ) / 100)) := by
  constructor
  · rw [← convertCm_eq_none, ← convertCm_eq_none, ← convertCm_eq_none]
    rcases h0 : convertCm u0 with _ | c0 <;> rcases h1 : convertCm u1 with _ | c1 <;>
      rcases h2 : convertCm u2 with _ | c2 <;> simp [medianDistance, h0, h1, h2]
  · intro c0 c1 c2 h0 h1 h2
    simp [medianDistance, h0, h1, h2, mid3_eq_median3]

/-- Witness for C6: raw echoes `[696, 57942, 754]` µs convert to
`[12, 999, 13]` cm — the single out-of-range 999 cm invalidates the
whole sample; raw echoes `[580, 1160, 870]` µs convert to
`[10, 20, 15]` cm and yield the median `15`. -/
theorem medianDistance_validity_and_median_witness :
    medianDistance 696 57942 754 = none ∧
    medianDistance 580 1160 870 = some 15 := by
  constructor
  · exact (medianDistance_validity_and_median 696 57942 754).1.mpr
      (Or.inr (Or.inl (Or.inr (Or.inr (by norm_num [maxCm])))))
  · have h := (medianDistance_validity_and_median 580 1160 870).2 10 20 15
      (by norm_num [convertCm, minCm, maxCm]) (by norm_num [convertCm, minCm, maxCm])
      (by norm_num [convertCm, minCm, maxCm])
    rw [h]
    have ht : Int.toNat 1500 = 1500 := rfl
    norm_num [median3, ht]

/-! ## Claim theorems: detection state machine -/

/-- In any cycle, the counter either stays put (with storage untouched)
or is incremented by the FREE→OCCUPIED transition (with a synchronous
save). -/
theorem loopStep_count_cases (s : MState) (dist : Flt) (n : ℕ) :
    ((loopStep s dist n).peopleCount = s.peopleCount ∧
      (loopStep s dist n).store = s.store) ∨
    ((loopStep s dist n).peopleCount = (s.peopleCount + 1) % UINT32 ∧
      (loopStep s dist n).store = ⟨MAGIC, (s.peopleCount + 1) % UINT32⟩ ∧
      s.occupied = false ∧ (loopStep s dist n).occupied = true) := by
  rcases dist with _ | d
  · exact Or.inl ⟨rfl, rfl⟩
  rcases hb : s.baseline with _ | b
  · rcases loopStep_nan_baseline s d n hb with ⟨hp, hs, _, _⟩
    exact Or.inl ⟨hp, hs⟩
  by_cases ho : s.occupied = true
  · rcases loopStep_occupied_frame s d n ho with ⟨hp, hs⟩
    exact Or.inl ⟨hp, hs⟩
  simp only [Bool.not_eq_true] at ho
  by_cases hge : b * varRatio ≤ |d - b|
  · rw [loopStep_trigger s b d n hb ho hge]
    exact Or.inr ⟨rfl, rfl, ho, rfl⟩
  · rw [loopStep_below_threshold s b d n hb ho (not_le.mp hge)]
    exact Or.inl ⟨rfl, rfl⟩

/-- Claim C1: for every valid sample `d` and calibrated baseline `b`,
a FREE state transitions to OCCUPIED iff `|d − b| ≥ 0.30 × b`; on that
transition the counter is incremented exactly once, persisted
synchronously, the transition timestamp is recorded and the
clear-counter is zeroed; without it the counter and storage are
untouched; and across all states and samples this transition is the
sole source of counting events. -/
theorem trigger_iff_and_sole_counting (s : MState) (b d : ℚ) (now : ℕ)
    (hb : s.baseline = some b) (hocc : s.occupied = false) :
    ((loopStep s (some d) now).occupied = true ↔ varRatio * b ≤ |d - b|) ∧
    (varRatio * b ≤ |d - b| →
      (loopStep s (some d) now).peopleCount = (s.peopleCount + 1) % UINT32 ∧
      (loopStep s (some d) now).store = ⟨MAGIC, (s.peopleCount + 1) % UINT32⟩ ∧
      (loopStep s (some d) now).triggeredTS = now % UINT32 ∧
      (loopStep s (some d) now).clearCount = 0) ∧
    (¬ varRatio * b ≤ |d - b| →
      (loopStep s (some d) now).peopleCount = s.peopleCount ∧
      (loopStep s (some d) now).store = s.store ∧
      (loopStep s (some d) now).occupied = false) ∧
    (∀ (t : MState) (dist : Flt) (n : ℕ),
      (loopStep t dist n).peopleCount ≠ t.peopleCount →
        t.occupied = false ∧ (loopStep t dist n).occupied = true ∧
        (loopStep t dist n).peopleCount = (t.peopleCount + 1) % UINT32 ∧
        (loopStep t dist n).store = ⟨MAGIC, (t.peopleCount + 1) % UINT32⟩) := by
  rw [mul_comm varRatio b]
  refine ⟨?_, ?_, ?_, ?_⟩
  · by_cases hge : b * varRatio ≤ |d - b|
    · rw [loopStep_trigger s b d now hb hocc hge]
      simpa using hge
    · rw [loopStep_below_threshold s b d now hb hocc (not_le.mp hge)]
      simpa [hocc] using hge
  · intro hge
    rw [loopStep_trigger s b d now hb hocc hge]
    exact ⟨rfl, rfl, rfl, rfl⟩
  · intro hge
    rw [loopStep_below_threshold s b d now hb hocc (not_le.mp hge)]
    exact ⟨rfl, rfl, hocc⟩
  · intro t dist n hne
    rcases loopStep_count_cases t dist n with ⟨hp, _⟩ | ⟨hp, hs, ho, ho2⟩
    · exact absurd hp hne
    · exact ⟨ho, ho2, hp, hs⟩

/-- Witness for C1: baseline 100 cm, sample 135 cm (35 % deviation)
fires the transition and increments the counter from 0 to 1. -/
theorem trigger_iff_and_sole_counting_witness :
    (loopStep ⟨0, some 100, false, 0, 0, false, ⟨0, 0⟩⟩ (some 135) 7).occupied = true ∧
    (loopStep ⟨0, some 100, false, 0, 0, false, ⟨0, 0⟩⟩ (some 135) 7).peopleCount = 1 := by
  have h := trigger_iff_and_sole_counting ⟨0, some 100, false, 0, 0, false, ⟨0, 0⟩⟩
    100 135 7 rfl rfl
  refine ⟨h.1.mpr (by norm_num [varRatio]), ?_⟩
  have h2 := (h.2.1 (by norm_num [varRatio])).1
  rw [h2]
  norm_num [UINT32]

/-- Counterexample for C2: a cycle whose sample is invalid returns
before the state machine runs, so at 2501 ms elapsed (past the 2500 ms
timeout) the machine is NOT forced FREE under a sensor fault that
yields invalid samples — it stays OCCUPIED. -/
theorem occupied_timeout_invalid_sample_counterexample :
    (loopStep ⟨1, some 100, true, 0, 0, false, ⟨42405, 1⟩⟩ none 2501).occupied = true ∧
    timeoutMs <
      2501 - (⟨1, some 100, true, 0, 0, false, ⟨42405, 1⟩⟩ : MState).triggeredTS := by
  exact ⟨rfl, by norm_num [timeoutMs]⟩

/-- Claim C2 (amended): while OCCUPIED, a cycle with a VALID sample
forces the state to FREE once `now − entry_time > 2500` ms, regardless
of debounce progress, and this timeout transition leaves the counter
and storage unchanged; at exactly 2500 ms elapsed (no clear condition
met) the state is still OCCUPIED; but a cycle with an invalid sample
returns before the timeout check, so under a sensor fault yielding only
invalid samples the machine stays OCCUPIED. -/
theorem occupied_timeout_forces_free (s : MState) (b d : ℚ) (now : ℕ)
    (hocc : s.occupied = true) (hb : s.baseline = some b)
    (hts : s.triggeredTS ≤ now) (hnow : now < UINT32) :
    (timeoutMs < now - s.triggeredTS →
      (loopStep s (some d) now).occupied = false ∧
      (loopStep s (some d) now).peopleCount = s.peopleCount ∧
      (loopStep s (some d) now).store = s.store) ∧
    (now - s.triggeredTS = timeoutMs → ¬(|d - b| < clearRatio * b) →
      (loopStep s (some d) now).occupied = true) ∧
    (∀ (t : MState) (n : ℕ), loopStep t none n = t) := by
  have e : wsub32 (now % UINT32) s.triggeredTS = now - s.triggeredTS := by
    rw [Nat.mod_eq_of_lt hnow, wsub32_eq_sub now s.triggeredTS hts hnow]
  refine ⟨?_, ?_, fun t n => loopStep_invalid t n⟩
  · intro h
    exact loopStep_timeout s d now hocc (by rw [e]; exact h)
  · intro he hncl
    rw [mul_comm clearRatio b] at hncl
    rw [loopStep_clear_fail s b d now hb hocc hncl (by rw [e, he])]
    exact hocc

/-- Witness for C2: entry at 0 ms, non-clearing sample 140 cm against
baseline 100 cm: at 2501 ms the machine is forced FREE with the count
still 1; at 2500 ms it is still OCCUPIED. -/
theorem occupied_timeout_forces_free_witness :
    (loopStep ⟨1, some 100, true, 0, 0, false, ⟨42405, 1⟩⟩ (some 140) 2501).occupied = false ∧
    (loopStep ⟨1, some 100, true, 0, 0, false, ⟨42405, 1⟩⟩ (some 140) 2501).peopleCount = 1 ∧
    (loopStep ⟨1, some 100, true, 0, 0, false, ⟨42405, 1⟩⟩ (some 140) 2500).occupied = true := by
  have h1 := occupied_timeout_forces_free ⟨1, some 100, true, 0, 0, false, ⟨42405, 1⟩⟩
    100 140 2501 rfl rfl (by norm_num) (by norm_num [UINT32])
  have h2 := occupied_timeout_forces_free ⟨1, some 100, true, 0, 0, false, ⟨42405, 1⟩⟩
    100 140 2500 rfl rfl (by norm_num) (by norm_num [UINT32])
  have ha := h1.1 (by norm_num [timeoutMs])
  exact ⟨ha.1, ha.2.1, h2.2.1 (by norm_num [timeoutMs]) (by norm_num [clearRatio])⟩

/-- Claim C3: while OCCUPIED (timeout not yet reached), a valid clear
sample (`|d − b| < 0.12 × b`) advances the clear-counter and the machine
returns to FREE exactly when the counter reaches 3; any failing valid
sample resets the clear-counter to 0 (no partial credit); and from a
fresh debounce three consecutive clear samples re-arm in exactly three
cycles — still OCCUPIED after one and two, FREE after the third. -/
theorem debounce_exactly_three_clears (s : MState) (b d : ℚ) (now : ℕ)
    (hocc : s.occupied = true) (hb : s.baseline = some b)
    (hntm : wsub32 (now % UINT32) s.triggeredTS ≤ timeoutMs) :
    (|d - b| < clearRatio * b →
      (loopStep s (some d) now).clearCount = (s.clearCount + 1) % 256 ∧
      ((loopStep s (some d) now).occupied = false ↔
        clearSeq ≤ (s.clearCount + 1) % 256)) ∧
    (¬(|d - b| < clearRatio * b) →
      (loopStep s (some d) now).clearCount = 0 ∧
      (loopStep s (some d) now).occupied = true) ∧
    (∀ (d1 d2 d3 : ℚ) (n1 n2 n3 : ℕ),
      s.clearCount = 0 →
      |d1 - b| < clearRatio * b → |d2 - b| < clearRatio * b → |d3 - b| < clearRatio * b →
      wsub32 (n1 % UINT32) s.triggeredTS ≤ timeoutMs →
      wsub32 (n2 % UINT32) s.triggeredTS ≤ timeoutMs →
      wsub32 (n3 % UINT32) s.triggeredTS ≤ timeoutMs →
      (loopStep s (some d1) n1).occupied = true ∧
      (loopStep (loopStep s (some d1) n1) (some d2) n2).occupied = true ∧
      (loopStep (loopStep (loopStep s (some d1) n1) (some d2) n2) (some d3) n3).occupied
        = false) := by
  rw [mul_comm clearRatio b]
  refine ⟨?_, ?_, ?_⟩
  · intro hcl
    by_cases hcc : clearSeq ≤ (s.clearCount + 1) % 256
    · rw [loopStep_clear_rearm s b d now hb hocc hcl hcc]
      simpa using hcc
    · rw [loopStep_clear_stay s b d now hb hocc hcl (not_le.mp hcc) hntm]
      simpa [hocc] using hcc
  · intro hncl
    rw [loopStep_clear_fail s b d now hb hocc hncl hntm]
    exact ⟨rfl, hocc⟩
  · intro d1 d2 d3 n1 n2 n3 h0 hc1 hc2 hc3 ht1 ht2 ht3
    have e1 : loopStep s (some d1) n1 = { s with clearCount := 1 } := by
      rw [loopStep_clear_stay s b d1 n1 hb hocc hc1 (by rw [h0]; norm_num [clearSeq]) ht1, h0]
    have e2 : loopStep { s with clearCount := 1 } (some d2) n2 =
        { s with clearCount := 2 } := by
      rw [loopStep_clear_stay { s with clearCount := 1 } b d2 n2 hb hocc hc2
        (by norm_num [clearSeq]) ht2]
      norm_num
    have e3 : loopStep { s with clearCount := 2 } (some d3) n3 =
        { s with
            clearCount := 3
            occupied := false
            baseline := updateBaseline false (some b) (some d3) } := by
      rw [loopStep_clear_rearm { s with clearCount := 2 } b d3 n3 hb hocc hc3
        (by norm_num [clearSeq])]
      norm_num
    rw [e1, e2, e3]
    exact ⟨hocc, hocc, rfl⟩

/-- Witness for C3: baseline 100 cm, clear readings 101, 102, 100 cm —
still OCCUPIED after one and two, FREE after the third, with no timeout
elapsing. -/
theorem debounce_exactly_three_clears_witness :
    (loopStep ⟨1, some 100, true, 0, 0, false, ⟨42405, 1⟩⟩ (some 101) 10).occupied = true ∧
    (loopStep (loopStep ⟨1, some 100, true, 0, 0, false, ⟨42405, 1⟩⟩ (some 101) 10)
      (some 102) 20).occupied = true ∧
    (loopStep (loopStep (loopStep ⟨1, some 100, true, 0, 0, false, ⟨42405, 1⟩⟩ (some 101) 10)
      (some 102) 20) (some 100) 30).occupied = false := by
  exact (debounce_exactly_three_clears ⟨1, some 100, true, 0, 0, false, ⟨42405, 1⟩⟩
      100 101 10 rfl rfl (by norm_num [wsub32, UINT32, timeoutMs])).2.2
    101 102 100 10 20 30 rfl
    (by norm_num [clearRatio]) (by norm_num [clearRatio]) (by norm_num [clearRatio])
    (by norm_num [wsub32, UINT32, timeoutMs]) (by norm_num [wsub32, UINT32, timeoutMs])
    (by norm_num [wsub32, UINT32, timeoutMs])

/-! ## Claim theorems: persisted count across operations -/

/-- Incrementing a `uint32` below the modulus either stays exact or
wraps precisely at `2^32 − 1`. -/
theorem uint32_succ_mod (pc : ℕ) (h : pc < UINT32) :
    (pc + 1) % UINT32 = pc + 1 ∨ (pc = UINT32 - 1 ∧ (pc + 1) % UINT32 = 0) := by
  simp only [UINT32] at *
  omega

/-- Counterexample for C8: the persisted counter is a `uint32`; a
counting event at count `2^32 − 1` wraps it to `0` — a decrease without
any explicit reset, so the count is not unconditionally monotone. -/
theorem counter_wrap_counterexample :
    (applyOp ⟨4294967295, some 100, false, 0, 0, false, ⟨0, 0⟩⟩
      (Op.cycle (some 135) 0)).peopleCount = 0 ∧
    (0 : ℕ) < 4294967295 := by
  constructor
  · have e : applyOp ⟨4294967295, some 100, false, 0, 0, false, ⟨0, 0⟩⟩
        (Op.cycle (some 135) 0) =
        loopStep ⟨4294967295, some 100, false, 0, 0, false, ⟨0, 0⟩⟩ (some 135) 0 := by
      simp [applyOp]
    rw [e, loopStep_trigger _ 100 135 0 rfl rfl (by norm_num [varRatio])]
    norm_num [UINT32]
  · norm_num

/-- Claim C8 (amended): across every operation — sampling cycle, reset,
report, recalibration — the count is monotonically non-decreasing
except for an explicit reset-to-zero or the 32-bit wrap of an increment
at `2^32 − 1`; every change of the count is written synchronously to
storage, and a reset persists zero immediately. -/
theorem counter_monotone_and_synced (s : MState) (op : Op)
    (hpc : s.peopleCount < UINT32) :
    (s.peopleCount ≤ (applyOp s op).peopleCount ∨ op = Op.rst ∨
      (s.peopleCount = UINT32 - 1 ∧ (applyOp s op).peopleCount = 0)) ∧
    ((applyOp s op).peopleCount ≠ s.peopleCount →
      (applyOp s op).store = ⟨MAGIC, (applyOp s op).peopleCount⟩) ∧
    (op = Op.rst → (applyOp s op).peopleCount = 0 ∧ (applyOp s op).store = ⟨MAGIC, 0⟩) := by
  cases op with
  | cycle dist n =>
    simp only [applyOp]
    by_cases hp : s.paused = true
    · simp [hp]
    · simp only [Bool.not_eq_true] at hp
      simp only [hp, Bool.false_eq_true, if_false]
      rcases loopStep_count_cases s dist n with ⟨hc, hs⟩ | ⟨hc, hs, _, _⟩
      · exact ⟨Or.inl (le_of_eq hc.symm), fun hne => absurd hc hne, fun h => Op.noConfusion h⟩
      · refine ⟨?_, fun hne => by rw [hs, hc], fun h => Op.noConfusion h⟩
        rcases uint32_succ_mod s.peopleCount hpc with hm | ⟨hw, hm⟩
        · exact Or.inl (by rw [hc, hm]; omega)
        · exact Or.inr (Or.inr ⟨hw, by rw [hc, hm]⟩)
  | rst =>
    exact ⟨Or.inr (Or.inl rfl), fun _ => rfl, fun _ => ⟨rfl, rfl⟩⟩
  | countCmd =>
    exact ⟨Or.inl le_rfl, fun hne => absurd rfl hne, fun h => Op.noConfusion h⟩
  | recal samples =>
    exact ⟨Or.inl le_rfl, fun hne => absurd rfl hne, fun h => Op.noConfusion h⟩

/-- Witness for C8: an explicit reset takes count 5 to 0 and persists
magic with zero synchronously. -/
theorem counter_monotone_and_synced_witness :
    (applyOp ⟨5, some 100, false, 0, 0, false, ⟨42405, 5⟩⟩ Op.rst).peopleCount = 0 ∧
    (applyOp ⟨5, some 100, false, 0, 0, false, ⟨42405, 5⟩⟩ Op.rst).store = ⟨42405, 0⟩ := by
  exact (counter_monotone_and_synced ⟨5, some 100, false, 0, 0, false, ⟨42405, 5⟩⟩ Op.rst
    (by norm_num [UINT32])).2.2 rfl

/-! ## Claim theorems: recalibration and the uncalibrated baseline -/

/-- Folding the calibration accumulator over a window of invalid
samples is a no-op. -/
theorem foldl_calib_all_none (l : List Flt) (acc : ℚ × ℕ) (h : ∀ d ∈ l, d = none) :
    l.foldl
      (fun acc d =>
        match d with
        | some q => (acc.1 + q, acc.2 + 1)
        | none => acc) acc = acc := by
  induction l generalizing acc with
  | nil => rfl
  | cons x xs ih =>
    have hx : x = none := h x (by simp)
    subst hx
    exact ih acc (fun d hd => h d (by simp [hd]))

/-- A calibration window with no valid samples scans to sum 0, count 0. -/
theorem calibScan_all_invalid (l : List Flt) (h : ∀ d ∈ l, d = none) :
    calibScan l = (0, 0) :=
  foldl_calib_all_none l (0, 0) h

/-- Claim C9: recalibration that collects zero valid samples retains
the previous baseline unchanged (both the ESP8266 `recalibrateBaseline`
and the AVR setup calibration guard with `if (n)`), and every
recalibration resets the detection state to FREE with a zero clear
counter (and zero timestamp), leaving the count and storage alone. -/
theorem recalibrate_zero_valid_guard (samples : List Flt) (s : MState) :
    ((∀ d ∈ samples, d = none) →
      (recalibrateBaseline samples s).baseline = s.baseline ∧
      avrCalibrate samples s.baseline = s.baseline) ∧
    (recalibrateBaseline samples s).occupied = false ∧
    (recalibrateBaseline samples s).clearCount = 0 ∧
    (recalibrateBaseline samples s).triggeredTS = 0 ∧
    (recalibrateBaseline samples s).peopleCount = s.peopleCount ∧
    (recalibrateBaseline samples s).store = s.store := by
  refine ⟨fun h => ?_, rfl, rfl, rfl, rfl, rfl⟩
  have hc := calibScan_all_invalid samples h
  constructor <;> simp [recalibrateBaseline, avrCalibrate, calibScan] at hc ⊢ <;> simp [hc]

/-- Witness for C9: a 15-sample window of invalid readings leaves the
baseline at 100 cm and forces FREE with a zero clear counter. -/
theorem recalibrate_zero_valid_guard_witness :
    (recalibrateBaseline (List.replicate 15 none)
      ⟨2, some 100, true, 1, 7, false, ⟨42405, 2⟩⟩).baseline = some 100 ∧
    (recalibrateBaseline (List.replicate 15 none)
      ⟨2, some 100, true, 1, 7, false, ⟨42405, 2⟩⟩).occupied = false ∧
    (recalibrateBaseline (List.replicate 15 none)
      ⟨2, some 100, true, 1, 7, false, ⟨42405, 2⟩⟩).clearCount = 0 := by
  have h := recalibrate_zero_valid_guard (List.replicate 15 (none : Flt))
    ⟨2, some 100, true, 1, 7, false, ⟨42405, 2⟩⟩
  exact ⟨(h.1 (by simp)).1, h.2.1, h.2.2.1⟩

/-- Claim C10: with an uncalibrated (`NAN`) baseline, every cycle on a
valid sample leaves the count and storage unchanged (no FREE→OCCUPIED
transition from FREE), and the baseline stays `NAN` — every threshold
comparison against `NAN` is false. -/
theorem nan_baseline_inert (s : MState) (d : ℚ) (now : ℕ)
    (hb : s.baseline = none) :
    (loopStep s (some d) now).peopleCount = s.peopleCount ∧
    (loopStep s (some d) now).store = s.store ∧
    (loopStep s (some d) now).baseline = none ∧
    (s.occupied = false → (loopStep s (some d) now).occupied = false) :=
  loopStep_nan_baseline s d now hb

/-- Witness for C10: an uncalibrated FREE state fed a valid 100 cm
sample keeps count 3, stays FREE and keeps the baseline `NAN`. -/
theorem nan_baseline_inert_witness :
    (loopStep ⟨3, none, false, 0, 0, false, ⟨42405, 3⟩⟩ (some 100) 5).peopleCount = 3 ∧
    (loopStep ⟨3, none, false, 0, 0, false, ⟨42405, 3⟩⟩ (some 100) 5).occupied = false ∧
    (loopStep ⟨3, none, false, 0, 0, false, ⟨42405, 3⟩⟩ (some 100) 5).baseline = none := by
  have h := nan_baseline_inert ⟨3, none, false, 0, 0, false, ⟨42405, 3⟩⟩ 100 5 rfl
  exact ⟨h.1, h.2.2.2 rfl, h.2.2.1⟩
